import Mathlib

/-!
Verification of the xgql reference-identity codec, resource classifier and
connection resolvers.

A shallow embedding of the core of the `xgql` repository:

* the Reference Identity Codec (`ReferenceID`, `ParseReferenceID`,
  `ReferenceID.string`) from `internal/graph/model/common.go`;
* the Resource Classifier (`GetKubernetesResource`) from the same file, and
  `GetCompositeResource` from `internal/graph/model/composite.go`;
* the Connection Resolvers `configuration.Revisions` and
  `configurationRevisionStatus.Objects` from the resolvers package.

Go strings are modelled as lists of bytes (`GoStr`), since Go strings are
arbitrary byte sequences and both the codec and the group filter operate
bytewise.  Fallible Go calls are modelled with `Except String`.
-/

namespace XGQL

/-- A Go string: an arbitrary byte sequence. -/
abbrev GoStr := List Nat

/-- Bytes of an ASCII Lean string literal, used to write fixtures. -/
def strBytes (s : String) : GoStr := s.toList.map Char.toNat

/-- Go `strings.Split` on a one-byte separator: splits a byte string into the
(always nonempty) list of chunks between occurrences of `sep`. -/
def splitOnByte (sep : Nat) : List Nat → List (List Nat)
  | [] => [[]]
  | c :: rest =>
    if c = sep then [] :: splitOnByte sep rest
    else
      match splitOnByte sep rest with
      | [] => [[c]]
      | p :: ps => (c :: p) :: ps

/-- Split at the first occurrence of `sep` (the behaviour of
`strings.SplitN(s, sep, 2)` when the separator occurs); `none` when `sep`
does not occur. -/
def splitFirstOnByte (sep : Nat) : List Nat → Option (List Nat × List Nat)
  | [] => none
  | c :: rest =>
    if c = sep then some ([], rest)
    else
      match splitFirstOnByte sep rest with
      | none => none
      | some (x, y) => some (c :: x, y)

/-- Effectful map over a list in the `Option` monad, failing if any element
fails. -/
def traverseOption (f : α → Option β) : List α → Option (List β)
  | [] => some []
  | a :: as =>
    match f a, traverseOption f as with
    | some b, some bs => some (b :: bs)
    | _, _ => none

/-- Effectful map over a list in the `Except` monad, stopping at the first
error. -/
def traverseExcept (f : α → Except ε β) : List α → Except ε (List β)
  | [] => .ok []
  | a :: as =>
    match f a with
    | .error e => .error e
    | .ok b =>
      match traverseExcept f as with
      | .error e => .error e
      | .ok bs => .ok (b :: bs)

/-- Effectful map-and-collect: each element may fail, produce nothing, or
produce one output; stops at the first error. -/
def traverseCollect (f : α → Except ε (Option β)) : List α → Except ε (List β)
  | [] => .ok []
  | a :: as =>
    match f a with
    | .error e => .error e
    | .ok none =>
      traverseCollect f as
    | .ok (some b) =>
      match traverseCollect f as with
      | .error e => .error e
      | .ok bs => .ok (b :: bs)

/-! ## The base64 `RawStdEncoding` codec

`encoding/base64.RawStdEncoding`: the standard alphabet, no padding.  The
encoder maps groups of three bytes to four sextets (with short final groups
of one or two bytes mapping to two or three sextets); the decoder inverts
this, rejecting characters outside the alphabet and a final group of a
single sextet.  As in Go, the decoder skips `\r` and `\n` bytes. -/

/-- The standard base64 alphabet: sextet value to ASCII byte. -/
def sextetToChar (s : Nat) : Nat :=
  if s < 26 then 65 + s
  else if s < 52 then 71 + s
  else if s < 62 then s - 4
  else if s = 62 then 43
  else 47

/-- Inverse of the standard base64 alphabet: ASCII byte to sextet value,
`none` for bytes outside the alphabet. -/
def charToSextet (c : Nat) : Option Nat :=
  if 65 ≤ c ∧ c ≤ 90 then some (c - 65)
  else if 97 ≤ c ∧ c ≤ 122 then some (c - 71)
  else if 48 ≤ c ∧ c ≤ 57 then some (c + 4)
  else if c = 43 then some 62
  else if c = 47 then some 63
  else none

/-- Pack a byte string into base64 sextet values, three bytes to four
sextets, with unpadded short final groups. -/
def encodeGroups : List Nat → List Nat
  | [] => []
  | [b0] => [b0 / 4, b0 % 4 * 16]
  | [b0, b1] => [b0 / 4, b0 % 4 * 16 + b1 / 16, b1 % 16 * 4]
  | b0 :: b1 :: b2 :: rest =>
    (b0 / 4) :: (b0 % 4 * 16 + b1 / 16) :: (b1 % 16 * 4 + b2 / 64) :: (b2 % 64) ::
      encodeGroups rest

/-- Unpack base64 sextet values into bytes, four sextets to three bytes;
a trailing single sextet is invalid. -/
def decodeGroups : List Nat → Option (List Nat)
  | [] => some []
  | [_] => none
  | [s0, s1] => some [s0 * 4 + s1 / 16]
  | [s0, s1, s2] => some [s0 * 4 + s1 / 16, s1 % 16 * 16 + s2 / 4]
  | s0 :: s1 :: s2 :: s3 :: rest =>
    match decodeGroups rest with
    | none => none
    | some bs =>
      some ((s0 * 4 + s1 / 16) :: (s1 % 16 * 16 + s2 / 4) :: (s2 % 4 * 64 + s3) :: bs)

/-- Go `base64.RawStdEncoding.EncodeToString`. -/
def encodeRawStd (bs : List Nat) : List Nat :=
  (encodeGroups bs).map sextetToChar

/-- The Go base64 decoder skips carriage returns and newlines. -/
def stripNewlines (cs : List Nat) : List Nat :=
  cs.filter fun c => c != 10 && c != 13

/-- Go `base64.RawStdEncoding.DecodeString`; `none` models a `CorruptInputError`. -/
def decodeRawStd (cs : List Nat) : Option (List Nat) :=
  match traverseOption charToSextet (stripNewlines cs) with
  | none => none
  | some ss => decodeGroups ss

/-! ## The Reference Identity Codec (`internal/graph/model/common.go`) -/

/-- The reference ID separator byte, `'|'` (`const sep = "|"`). -/
def sepByte : Nat := 124

/-- A `ReferenceID` uniquely represents a Kubernetes resource: the 4-tuple
`{apiVersion, kind, namespace, name}`. -/
structure ReferenceID where
  apiVersion : GoStr
  kind : GoStr
  namespace' : GoStr
  name : GoStr
deriving DecidableEq

/-- The serialised payload `"apiVersion|kind|namespace|name"`. -/
def ReferenceID.payload (id : ReferenceID) : GoStr :=
  id.apiVersion ++ sepByte :: (id.kind ++ sepByte :: (id.namespace' ++ sepByte :: id.name))

/-- Method `ReferenceID.String`: base64-encode the joined payload. -/
def ReferenceID.string (id : ReferenceID) : GoStr :=
  encodeRawStd id.payload

/-- The two error kinds of `ParseReferenceID`: `errDecode` ("cannot decode
id", wrapping the base64 error) and `errMalformed` ("malformed id"). -/
inductive IDError where
  | decode : IDError
  | malformed : IDError
deriving DecidableEq

/-- Parser `ParseReferenceID`: base64-decode the ID, split the decoded bytes on the
separator, and require exactly four parts. -/
def ParseReferenceID (s : GoStr) : Except IDError ReferenceID :=
  match decodeRawStd s with
  | none => .error .decode
  | some b =>
    match splitOnByte sepByte b with
    | [a, k, ns, n] => .ok ⟨a, k, ns, n⟩
    | _ => .error .malformed

/-! ## Unstructured Kubernetes objects

`unstructured.Unstructured` wraps a dynamically-typed JSON object
(`map[string]interface{}`); we embed it as a JSON value tree. -/

/-- A dynamically-typed JSON value, the content of an unstructured object. -/
inductive JSON where
  | null : JSON
  | bool : Bool → JSON
  | str : GoStr → JSON
  | arr : List JSON → JSON
  | obj : List (GoStr × JSON) → JSON

/-- Look up a key in the field list of a JSON object. -/
def lookupField (k : GoStr) : List (GoStr × JSON) → Option JSON
  | [] => none
  | (k', v) :: rest => if k' == k then some v else lookupField k rest

/-- Look up a key of a JSON value; `none` when the value is not an object. -/
def JSON.get (j : JSON) (k : GoStr) : Option JSON :=
  match j with
  | .obj fs => lookupField k fs
  | _ => none

/-- A string-valued field, or `""` when absent or not a string — the
behaviour of the `unstructured` accessors (`GetAPIVersion`, `GetKind`, …). -/
def JSON.getStr (j : JSON) (k : GoStr) : GoStr :=
  match j.get k with
  | some (.str s) => s
  | _ => []

def keyAPIVersion : GoStr := strBytes "apiVersion"
def keyKind : GoStr := strBytes "kind"
def keyMetadata : GoStr := strBytes "metadata"
def keyName : GoStr := strBytes "name"
def keyNamespace : GoStr := strBytes "namespace"
def keyUID : GoStr := strBytes "uid"
def keySpec : GoStr := strBytes "spec"

/-- Accessor `u.GetAPIVersion()`. -/
def JSON.apiVersion (u : JSON) : GoStr := u.getStr keyAPIVersion

/-- Accessor `u.GetKind()`. -/
def JSON.kind (u : JSON) : GoStr := u.getStr keyKind

/-- A nested string field under `metadata`. -/
def JSON.metaStr (u : JSON) (k : GoStr) : GoStr :=
  match u.get keyMetadata with
  | some m => m.getStr k
  | none => []

/-- Accessor `u.GetName()`. -/
def JSON.name (u : JSON) : GoStr := u.metaStr keyName

/-- Accessor `u.GetNamespace()`. -/
def JSON.namespace' (u : JSON) : GoStr := u.metaStr keyNamespace

/-- Type `schema.GroupVersionKind`. -/
structure GroupVersionKind where
  group : GoStr
  version : GoStr
  kind : GoStr
deriving DecidableEq

/-- Go `schema.FromAPIVersionAndKind`: split `apiVersion` at the first `/` into
group and version; with no `/` the whole string is the version. -/
def fromAPIVersionAndKind (apiVersion kind : GoStr) : GroupVersionKind :=
  match splitFirstOnByte 47 apiVersion with
  | some (g, v) => ⟨g, v, kind⟩
  | none => ⟨[], apiVersion, kind⟩

/-- Accessor `u.GroupVersionKind()`. -/
def JSON.gvk (u : JSON) : GroupVersionKind :=
  fromAPIVersionAndKind u.apiVersion u.kind

/-! ## Known group/version/kinds (constants of the crossplane API packages) -/

def pkgGroup : GoStr := strBytes "pkg.crossplane.io"

def apiExtGroup : GoStr := strBytes "apiextensions.crossplane.io"

def providerGVK : GroupVersionKind := ⟨pkgGroup, strBytes "v1", strBytes "Provider"⟩

def providerRevisionGVK : GroupVersionKind :=
  ⟨pkgGroup, strBytes "v1", strBytes "ProviderRevision"⟩

def configurationGVK : GroupVersionKind :=
  ⟨pkgGroup, strBytes "v1", strBytes "Configuration"⟩

def configurationRevisionGVK : GroupVersionKind :=
  ⟨pkgGroup, strBytes "v1", strBytes "ConfigurationRevision"⟩

def xrdGVK : GroupVersionKind :=
  ⟨apiExtGroup, strBytes "v1", strBytes "CompositeResourceDefinition"⟩

/-- The fixed, known-in-advance set of package/extension kinds matched
exactly by the classifier. -/
def packageGVKs : List GroupVersionKind :=
  [providerGVK, providerRevisionGVK, configurationGVK, configurationRevisionGVK, xrdGVK]

/-! ## Shape heuristics

The predicates `unstructured.ProbablyManaged`, `ProbablyProviderConfig` and
`ProbablyComposite` live in `internal/unstructured`, which is not part of the
sources under verification. -/

/-- Modelled from the spec: `unstructured.ProbablyManaged` (missing from the
sources) — a shape heuristic that "inspects the object's shape for attributes
conventionally present on managed resources (e.g. a provider-config reference
field) without relying on a discriminator field". -/
def probablyManaged (u : JSON) : Bool :=
  (((u.get keySpec).bind fun s => s.get (strBytes "providerConfigRef"))).isSome

/-- Modelled from the spec: `unstructured.ProbablyProviderConfig` (missing
from the sources) — "similarly shape-based"; modelled as the presence of the
credentials attribute conventional on provider configs. -/
def probablyProviderConfig (u : JSON) : Bool :=
  (((u.get keySpec).bind fun s => s.get (strBytes "credentials"))).isSome

/-- Modelled from the spec: `unstructured.ProbablyComposite` (missing from
the sources) — shape-based; modelled as the presence of the composed-resource
references attribute conventional on composite resources. -/
def probablyComposite (u : JSON) : Bool :=
  (((u.get keySpec).bind fun s => s.get (strBytes "resourceRefs"))).isSome

/-! ## Typed conversion

`convert` in `common.go` defers to
`runtime.DefaultUnstructuredConverter.FromUnstructured` (an external k8s
library) and then restores the group/version/kind from the unstructured
object.  We model the typed package shapes with their identity-relevant
fields, and structural conversion as fallible field extraction. -/

/-- A typed `metav1.ObjectMeta` projection. -/
structure TypedMeta where
  name : GoStr
  namespace' : GoStr
  uid : GoStr
deriving DecidableEq

/-- Modelled from the spec: the fallible extraction of an optional
string-typed field during untyped→typed structural conversion — "explicit,
fallible field-by-field extraction into the target shape".  A present field
of the wrong dynamic type is a conversion error. -/
def decodeOptStr (o : JSON) (k : GoStr) : Except String (Option GoStr) :=
  match o.get k with
  | none => .ok none
  | some (.str s) => .ok (some s)
  | some _ => .error "json: cannot unmarshal field"

/-- Modelled from the spec: structural conversion of the `metadata` section;
fails when `metadata` or a declared field within it has the wrong dynamic
type. -/
def decodeMeta (u : JSON) : Except String TypedMeta :=
  match u.get keyMetadata with
  | none => .ok ⟨[], [], []⟩
  | some (.obj fs) => do
    let n ← decodeOptStr (.obj fs) keyName
    let ns ← decodeOptStr (.obj fs) keyNamespace
    let uid ← decodeOptStr (.obj fs) keyUID
    .ok ⟨n.getD [], ns.getD [], uid.getD []⟩
  | some _ => .error "json: cannot unmarshal metadata"

/-- Modelled from the spec: the typed package spec shared by the package
kinds; conversion requires `spec`, when present, to be an object, and its
declared `package` field, when present, to be a string. -/
def decodePackageSpec (u : JSON) : Except String (Option GoStr) :=
  match u.get keySpec with
  | none => .ok none
  | some (.obj fs) => decodeOptStr (.obj fs) (strBytes "package")
  | some _ => .error "json: cannot unmarshal spec"

/-- A typed `pkgv1.Provider`. -/
structure Provider where
  apiVersion : GoStr
  kind : GoStr
  meta : TypedMeta
  pkg : Option GoStr

/-- A typed `pkgv1.ProviderRevision`. -/
structure ProviderRevision where
  apiVersion : GoStr
  kind : GoStr
  meta : TypedMeta
  pkg : Option GoStr

/-- A typed `pkgv1.Configuration`. -/
structure Configuration where
  apiVersion : GoStr
  kind : GoStr
  meta : TypedMeta
  pkg : Option GoStr

/-- A typed `pkgv1.ConfigurationRevision`. -/
structure ConfigurationRevisionTyped where
  apiVersion : GoStr
  kind : GoStr
  meta : TypedMeta
  pkg : Option GoStr

/-- A typed `extv1.CompositeResourceDefinition`. -/
structure CompositeResourceDefinitionTyped where
  apiVersion : GoStr
  kind : GoStr
  meta : TypedMeta
  group : Option GoStr

/-- Modelled from the spec: `convert(u, &pkgv1.Provider{})` — lossless
structural conversion, then restoring the GVK from the unstructured object
(as the `convert` helper in `common.go` does). -/
def convertProvider (u : JSON) : Except String Provider := do
  let m ← decodeMeta u
  let p ← decodePackageSpec u
  .ok ⟨u.apiVersion, u.kind, m, p⟩

/-- Modelled from the spec: `convert(u, &pkgv1.ProviderRevision{})`. -/
def convertProviderRevision (u : JSON) : Except String ProviderRevision := do
  let m ← decodeMeta u
  let p ← decodePackageSpec u
  .ok ⟨u.apiVersion, u.kind, m, p⟩

/-- Modelled from the spec: `convert(u, &pkgv1.Configuration{})`. -/
def convertConfiguration (u : JSON) : Except String Configuration := do
  let m ← decodeMeta u
  let p ← decodePackageSpec u
  .ok ⟨u.apiVersion, u.kind, m, p⟩

/-- Modelled from the spec: `convert(u, &pkgv1.ConfigurationRevision{})`. -/
def convertConfigurationRevision (u : JSON) : Except String ConfigurationRevisionTyped := do
  let m ← decodeMeta u
  let p ← decodePackageSpec u
  .ok ⟨u.apiVersion, u.kind, m, p⟩

/-- Modelled from the spec: `convert(u, &extv1.CompositeResourceDefinition{})`;
the XRD declares `spec.group` as a string. -/
def convertXRD (u : JSON) : Except String CompositeResourceDefinitionTyped := do
  let m ← decodeMeta u
  let g ← match u.get keySpec with
    | none => pure none
    | some (.obj fs) => decodeOptStr (.obj fs) (strBytes "group")
    | some _ => Except.error "json: cannot unmarshal spec"
  .ok ⟨u.apiVersion, u.kind, m, g⟩

/-! ## Output records -/

/-- Function `GetObjectMeta`, modelled from the spec: the typed projection of the
object metadata carried by every output record (the function itself lives in
a model source file that is not under verification). -/
structure ObjectMeta where
  name : GoStr
  namespace' : GoStr
deriving DecidableEq

def getObjectMeta (u : JSON) : ObjectMeta := ⟨u.name, u.namespace'⟩

/-- A `GenericResource` output record (`common.go`). -/
structure GenericResource where
  id : ReferenceID
  apiVersion : GoStr
  kind : GoStr
  metadata : ObjectMeta
  raw : JSON

/-- Function `GetGenericResource` (`common.go`): the ID is built from the object's
apiVersion/kind/namespace/name 4-tuple; `raw` is the serialized object
(serialization of our JSON model never fails and is modelled as the value
itself). -/
def GetGenericResource (u : JSON) : Except String GenericResource :=
  .ok { id := ⟨u.apiVersion, u.kind, u.namespace', u.name⟩
        apiVersion := u.apiVersion
        kind := u.kind
        metadata := getObjectMeta u
        raw := u }

/-- The `CompositeResourceSpec` projection built by `GetCompositeResource`
(`composite.go`); the unstructured-composite getters live outside the
verified sources and are modelled as the evident `spec` field lookups. -/
structure CompositeResourceSpec where
  compositionSelector : Option JSON
  compositionReference : Option JSON
  claimReference : Option JSON
  resourceReferences : Option JSON
  writesConnectionSecretToReference : Option JSON

/-- The `CompositeResourceStatus` projection built by
`GetCompositeResource`. -/
structure CompositeResourceStatus where
  conditions : Option JSON
  connectionDetailsLastPublishedTime : Option JSON

/-- A `CompositeResource` output record.  Modelled from the spec: the record
type itself is generated model code outside the verified sources; per the
spec, "every variant carries a ReferenceID", so the record declares an `id`
field. -/
structure CompositeResource where
  id : ReferenceID
  apiVersion : GoStr
  kind : GoStr
  metadata : ObjectMeta
  spec : CompositeResourceSpec
  status : CompositeResourceStatus
  raw : JSON

/-- A field of the composite's `spec` section. -/
def JSON.specField (u : JSON) (k : GoStr) : Option JSON :=
  (u.get keySpec).bind fun s => s.get k

/-- A field of the composite's `status` section. -/
def JSON.statusField (u : JSON) (k : GoStr) : Option JSON :=
  (u.get (strBytes "status")).bind fun s => s.get k

/-- Function `GetCompositeResource` (`composite.go`).  The Go composite literal does
not mention the `ID` field, so it is left at its zero value — unlike
`GetGenericResource`, no ReferenceID is built from the object's 4-tuple. -/
def GetCompositeResource (u : JSON) : Except String CompositeResource :=
  .ok { id := ⟨[], [], [], []⟩
        apiVersion := u.apiVersion
        kind := u.kind
        metadata := getObjectMeta u
        spec :=
          { compositionSelector := u.specField (strBytes "compositionSelector")
            compositionReference := u.specField (strBytes "compositionRef")
            claimReference := u.specField (strBytes "claimRef")
            resourceReferences := u.specField (strBytes "resourceRefs")
            writesConnectionSecretToReference :=
              u.specField (strBytes "writeConnectionSecretToRef") }
        status :=
          { conditions := u.statusField (strBytes "conditions")
            connectionDetailsLastPublishedTime :=
              (u.statusField (strBytes "connectionDetails")).bind fun d =>
                d.get (strBytes "lastPublishedTime") }
        raw := u }

/-- A `ManagedResource` output record.  Modelled from the spec: built from
the unstructured object with its identity 4-tuple and raw serialization. -/
structure ManagedResource where
  id : ReferenceID
  apiVersion : GoStr
  kind : GoStr
  metadata : ObjectMeta
  raw : JSON

/-- Modelled from the spec: `GetManagedResource` (missing from the sources)
builds the managed-resource record, with its ReferenceID from the object's
4-tuple. -/
def GetManagedResource (u : JSON) : Except String ManagedResource :=
  .ok { id := ⟨u.apiVersion, u.kind, u.namespace', u.name⟩
        apiVersion := u.apiVersion
        kind := u.kind
        metadata := getObjectMeta u
        raw := u }

/-- A `ProviderConfig` output record, modelled from the spec. -/
structure ProviderConfigRecord where
  id : ReferenceID
  apiVersion : GoStr
  kind : GoStr
  raw : JSON

/-- Modelled from the spec: `GetProviderConfig` (missing from the sources). -/
def GetProviderConfig (u : JSON) : Except String ProviderConfigRecord :=
  .ok { id := ⟨u.apiVersion, u.kind, u.namespace', u.name⟩
        apiVersion := u.apiVersion
        kind := u.kind
        raw := u }

/-- A typed-package output record, modelled from the spec, shared shape for
the Provider/ProviderRevision/Configuration/ConfigurationRevision/XRD
records: the ReferenceID built from the typed object's identity. -/
structure PackageRecord where
  id : ReferenceID
  apiVersion : GoStr
  kind : GoStr

/-- Modelled from the spec: `GetProvider` (missing from the sources). -/
def GetProvider (p : Provider) : Except String PackageRecord :=
  .ok ⟨⟨p.apiVersion, p.kind, p.meta.namespace', p.meta.name⟩, p.apiVersion, p.kind⟩

/-- Modelled from the spec: `GetProviderRevision` (missing from the sources). -/
def GetProviderRevisionRecord (p : ProviderRevision) : Except String PackageRecord :=
  .ok ⟨⟨p.apiVersion, p.kind, p.meta.namespace', p.meta.name⟩, p.apiVersion, p.kind⟩

/-- Modelled from the spec: `GetConfiguration` (missing from the sources). -/
def GetConfigurationRecord (c : Configuration) : Except String PackageRecord :=
  .ok ⟨⟨c.apiVersion, c.kind, c.meta.namespace', c.meta.name⟩, c.apiVersion, c.kind⟩

/-- Modelled from the spec: `GetConfigurationRevision` (missing from the
sources). -/
def GetConfigurationRevisionRecord (c : ConfigurationRevisionTyped) :
    Except String PackageRecord :=
  .ok ⟨⟨c.apiVersion, c.kind, c.meta.namespace', c.meta.name⟩, c.apiVersion, c.kind⟩

/-- Modelled from the spec: `GetCompositeResourceDefinition` (missing from
the sources). -/
def GetCompositeResourceDefinitionRecord (x : CompositeResourceDefinitionTyped) :
    Except String PackageRecord :=
  .ok ⟨⟨x.apiVersion, x.kind, x.meta.namespace', x.meta.name⟩, x.apiVersion, x.kind⟩

/-- The closed variant type over the classifier's supported shapes. -/
inductive KubernetesResource where
  | managed : ManagedResource → KubernetesResource
  | providerConfig : ProviderConfigRecord → KubernetesResource
  | composite : CompositeResource → KubernetesResource
  | provider : PackageRecord → KubernetesResource
  | providerRevision : PackageRecord → KubernetesResource
  | configuration : PackageRecord → KubernetesResource
  | configurationRevision : PackageRecord → KubernetesResource
  | compositeResourceDefinition : PackageRecord → KubernetesResource
  | generic : GenericResource → KubernetesResource

/-- Function `GetKubernetesResource` (`common.go`): the ordered classifier switch —
the three shape heuristics first, then the exact group/version/kind matches
against the known package kinds (each requiring a typed conversion whose
failure is a hard error), and `GenericResource` as the default. -/
def GetKubernetesResource (u : JSON) : Except String KubernetesResource :=
  if probablyManaged u then
    match GetManagedResource u with
    | .error e => .error ("cannot model managed resource: " ++ e)
    | .ok out => .ok (.managed out)
  else if probablyProviderConfig u then
    match GetProviderConfig u with
    | .error e => .error ("cannot model provider config: " ++ e)
    | .ok out => .ok (.providerConfig out)
  else if probablyComposite u then
    match GetCompositeResource u with
    | .error e => .error ("cannot model composite resource: " ++ e)
    | .ok out => .ok (.composite out)
  else if u.gvk = providerGVK then
    match convertProvider u with
    | .error e => .error ("cannot convert provider: " ++ e)
    | .ok p =>
      match GetProvider p with
      | .error e => .error ("cannot model provider: " ++ e)
      | .ok out => .ok (.provider out)
  else if u.gvk = providerRevisionGVK then
    match convertProviderRevision u with
    | .error e => .error ("cannot convert provider revision: " ++ e)
    | .ok pr =>
      match GetProviderRevisionRecord pr with
      | .error e => .error ("cannot model provider revision: " ++ e)
      | .ok out => .ok (.providerRevision out)
  else if u.gvk = configurationGVK then
    match convertConfiguration u with
    | .error e => .error ("cannot convert configuration: " ++ e)
    | .ok c =>
      match GetConfigurationRecord c with
      | .error e => .error ("cannot model configuration: " ++ e)
      | .ok out => .ok (.configuration out)
  else if u.gvk = configurationRevisionGVK then
    match convertConfigurationRevision u with
    | .error e => .error ("cannot convert configuration revision: " ++ e)
    | .ok cr =>
      match GetConfigurationRevisionRecord cr with
      | .error e => .error ("cannot model configuration revision: " ++ e)
      | .ok out => .ok (.configurationRevision out)
  else if u.gvk = xrdGVK then
    match convertXRD u with
    | .error e => .error ("cannot convert composite resource definition: " ++ e)
    | .ok xrd =>
      match GetCompositeResourceDefinitionRecord xrd with
      | .error e => .error ("cannot model composite resource definition: " ++ e)
      | .ok out => .ok (.compositeResourceDefinition out)
  else
    match GetGenericResource u with
    | .error e => .error ("cannot model generic resource: " ++ e)
    | .ok out => .ok (.generic out)

/-! ## The Connection Resolvers (`configuration.Revisions` and
`configurationRevisionStatus.Objects`)

Both resolvers are modelled from the point after the backend list/client is
obtained: the candidate list is an explicit argument, and every backend or
modeling call the loop makes per candidate is an explicit fallible function
argument (the shapes of these collaborators are interfaces to code outside
the verified sources). -/

/-- A paginated connection: a total match count and the page of items. -/
structure Connection (β : Type) where
  count : Int
  items : List β
deriving DecidableEq

/-- Type `metav1.OwnerReference`, restricted to the fields the resolver reads. -/
structure OwnerReference where
  uid : GoStr
  controller : Option Bool
deriving DecidableEq

/-- Type `pkgv1.PackageRevisionDesiredState`. -/
inductive PackageRevisionDesiredState where
  | active : PackageRevisionDesiredState
  | inactive : PackageRevisionDesiredState
deriving DecidableEq

/-- A `pkgv1.ConfigurationRevision` candidate, restricted to the fields the
resolver reads (plus a name to tell candidates apart). -/
structure ConfigurationRevision where
  name : GoStr
  ownerReferences : List OwnerReference
  desiredState : PackageRevisionDesiredState
deriving DecidableEq

/-- Go `metav1.GetControllerOf`: the owner reference flagged as controller,
if any. -/
def getControllerOf (cr : ConfigurationRevision) : Option OwnerReference :=
  cr.ownerReferences.find? fun o => o.controller.getD false

/-- The controller-reference filter of `configuration.Revisions`: the
candidate is skipped when it has no controller reference or the controller's
UID differs from the parent configuration's UID. -/
def excludedByController (parentUID : GoStr) (cr : ConfigurationRevision) : Bool :=
  match getControllerOf cr with
  | none => true
  | some c => c.uid != parentUID

/-- The active-state filter of `configuration.Revisions`:
`pointer.BoolPtrDerefOr(active, false) && cr.Spec.DesiredState != Active`. -/
def excludedByActive (active : Option Bool) (cr : ConfigurationRevision) : Bool :=
  active.getD false && cr.desiredState != .active

/-- A candidate passes when neither filter excludes it. -/
def passesFilters (parentUID : GoStr) (active : Option Bool)
    (cr : ConfigurationRevision) : Bool :=
  !excludedByController parentUID cr && !excludedByActive active cr

/-- The check `limit != nil && *limit < count`. -/
def limitHit (limit : Option Int) (count : Int) : Bool :=
  match limit with
  | none => false
  | some l => l < count

/-- The loop of `configuration.Revisions` over the listed candidates, with
the accumulated count and items: skip candidates excluded by either filter,
count every survivor, and model (fail-fast) only the survivors that arrive
before the limit is hit. -/
def revisionsLoop (getRev : ConfigurationRevision → Except String β)
    (parentUID : GoStr) (limit : Option Int) (active : Option Bool) :
    Int → List β → List ConfigurationRevision → Except String (Connection β)
  | count, items, [] => .ok ⟨count, items⟩
  | count, items, cr :: rest =>
    if excludedByController parentUID cr then
      revisionsLoop getRev parentUID limit active count items rest
    else if excludedByActive active cr then
      revisionsLoop getRev parentUID limit active count items rest
    else
      if limitHit limit (count + 1) then
        revisionsLoop getRev parentUID limit active (count + 1) items rest
      else
        match getRev cr with
        | .error e => .error ("cannot model configuration revision: " ++ e)
        | .ok i => revisionsLoop getRev parentUID limit active (count + 1) (items ++ [i]) rest

/-- Resolver `configuration.Revisions`, from the listed candidates onward: `getRev`
is `model.GetConfigurationRevision`, `parentUID` is `obj.Metadata.UID`. -/
def revisions (getRev : ConfigurationRevision → Except String β) (parentUID : GoStr)
    (limit : Option Int) (active : Option Bool) (candidates : List ConfigurationRevision) :
    Except String (Connection β) :=
  revisionsLoop getRev parentUID limit active 0 [] candidates

/-- The candidates destined for the returned page: all survivors when the
limit is unset, otherwise the first `limit` survivors (none when the limit
is negative). -/
def pageOf (limit : Option Int) (passing : List α) : List α :=
  match limit with
  | none => passing
  | some l => passing.take l.toNat

/-- The candidates still destined for the page when the loop has already
counted `count` survivors. -/
def pageFrom (limit : Option Int) (count : Int) (passing : List α) : List α :=
  match limit with
  | none => passing
  | some l => passing.take (l - count).toNat

/-! ### `configurationRevisionStatus.Objects` -/

/-- An object reference out of `obj.ObjectRefs`. -/
structure ObjectRef where
  apiVersion : GoStr
  kind : GoStr
  name : GoStr
deriving DecidableEq

/-- Go `strings.Split(ref.APIVersion, "/")[0]`: the API group of a reference. -/
def refGroup (ref : ObjectRef) : GoStr :=
  (splitOnByte 47 ref.apiVersion).headD []

/-- The group filter of `Objects`: only references in the
`apiextensions.crossplane.io` group are considered. -/
def inAPIExtGroup (ref : ObjectRef) : Bool :=
  refGroup ref == apiExtGroup

def xrdKind : GoStr := strBytes "CompositeResourceDefinition"

def compositionKind : GoStr := strBytes "Composition"

/-- The per-reference fetch-and-model step of the `Objects` switch:
an XRD reference is fetched and modelled, a Composition reference is fetched
and modelled, and any other kind in the group produces no item.  `none`
models falling through the switch. -/
def fetchModelRef (getXRD : GoStr → Except String γ₁) (modelXRD : γ₁ → Except String β)
    (getComposition : GoStr → Except String γ₂) (modelComposition : γ₂ → Except String β)
    (ref : ObjectRef) : Except String (Option β) :=
  if ref.kind == xrdKind then
    match getXRD ref.name with
    | .error e => .error ("cannot get CompositeResourceDefinition: " ++ e)
    | .ok x =>
      match modelXRD x with
      | .error e => .error ("cannot model composite resource definition: " ++ e)
      | .ok i => .ok (some i)
  else if ref.kind == compositionKind then
    match getComposition ref.name with
    | .error e => .error ("cannot get Composition: " ++ e)
    | .ok c =>
      match modelComposition c with
      | .error e => .error ("cannot model composition: " ++ e)
      | .ok i => .ok (some i)
  else .ok none

/-- The loop of `configurationRevisionStatus.Objects` over the object
references: skip references outside the `apiextensions.crossplane.io` group,
count every reference inside it (whatever its kind), and fetch/model only
those arriving before the limit is hit. -/
def objectsLoop (getXRD : GoStr → Except String γ₁) (modelXRD : γ₁ → Except String β)
    (getComposition : GoStr → Except String γ₂) (modelComposition : γ₂ → Except String β)
    (limit : Option Int) :
    Int → List β → List ObjectRef → Except String (Connection β)
  | count, items, [] => .ok ⟨count, items⟩
  | count, items, ref :: rest =>
    if !inAPIExtGroup ref then
      objectsLoop getXRD modelXRD getComposition modelComposition limit count items rest
    else
      if limitHit limit (count + 1) then
        objectsLoop getXRD modelXRD getComposition modelComposition limit (count + 1) items rest
      else
        match fetchModelRef getXRD modelXRD getComposition modelComposition ref with
        | .error e => .error e
        | .ok none =>
          objectsLoop getXRD modelXRD getComposition modelComposition limit (count + 1) items rest
        | .ok (some i) =>
          objectsLoop getXRD modelXRD getComposition modelComposition limit (count + 1)
            (items ++ [i]) rest

/-- Resolver `configurationRevisionStatus.Objects`, from the object references of the
revision status onward: `getXRD`/`getComposition` are the typed client gets,
`modelXRD`/`modelComposition` the model constructors. -/
def objects (getXRD : GoStr → Except String γ₁) (modelXRD : γ₁ → Except String β)
    (getComposition : GoStr → Except String γ₂) (modelComposition : γ₂ → Except String β)
    (limit : Option Int) (refs : List ObjectRef) : Except String (Connection β) :=
  objectsLoop getXRD modelXRD getComposition modelComposition limit 0 [] refs

/-- Whether the fetch-and-model step succeeded with an item. -/
def okSome (r : Except ε (Option β)) : Bool :=
  match r with
  | .ok (some _) => true
  | _ => false

/-- The two kinds handled by the `Objects` switch. -/
def refKindHandled (r : ObjectRef) : Bool :=
  r.kind == xrdKind || r.kind == compositionKind

/-! ## Concrete fixtures used by the witnesses -/

/-- The end-to-end identity fixture `{a/v1, Foo, ns, bar}`. -/
def refFixture : ReferenceID :=
  ⟨strBytes "a/v1", strBytes "Foo", strBytes "ns", strBytes "bar"⟩

def parentUIDFixture : GoStr := strBytes "uid-1"

def crOwnedA : ConfigurationRevision :=
  ⟨strBytes "rev-a", [⟨parentUIDFixture, some true⟩], .active⟩

def crOwnedB : ConfigurationRevision :=
  ⟨strBytes "rev-b", [⟨parentUIDFixture, some true⟩], .active⟩

def crOwnedC : ConfigurationRevision :=
  ⟨strBytes "rev-c", [⟨parentUIDFixture, some true⟩], .inactive⟩

def crForeign : ConfigurationRevision :=
  ⟨strBytes "rev-d", [⟨strBytes "uid-2", some true⟩], .active⟩

def crOrphan : ConfigurationRevision :=
  ⟨strBytes "rev-e", [], .active⟩

/-- Five listed candidates: three owned by the parent, one owned by another
parent, one with no controller reference. -/
def revCandidates : List ConfigurationRevision :=
  [crOwnedA, crForeign, crOwnedB, crOrphan, crOwnedC]

/-- A modeling function that always succeeds, keeping the candidate name. -/
def nameRev : ConfigurationRevision → Except String GoStr :=
  fun cr => .ok cr.name

/-- A modeling function that fails on the second owned candidate. -/
def failOnB : ConfigurationRevision → Except String GoStr :=
  fun cr => if cr.name == strBytes "rev-b" then .error "boom" else .ok cr.name

def xrdRef : ObjectRef :=
  ⟨strBytes "apiextensions.crossplane.io/v1", xrdKind, strBytes "xrd-1"⟩

/-- An in-group reference whose kind is neither handled kind. -/
def weirdRef : ObjectRef :=
  ⟨strBytes "apiextensions.crossplane.io/v1", strBytes "Weird", strBytes "w-1"⟩

def outsideRef : ObjectRef :=
  ⟨strBytes "example.org/v1", compositionKind, strBytes "c-1"⟩

def objRefs : List ObjectRef := [xrdRef, weirdRef, outsideRef]

/-- An object satisfying both the probably-managed heuristic and the exact
GVK match for the Configuration package kind. -/
def uManagedPkg : JSON :=
  .obj [(keyAPIVersion, .str (strBytes "pkg.crossplane.io/v1")),
        (keyKind, .str (strBytes "Configuration")),
        (keyMetadata, .obj [(keyName, .str (strBytes "cfg-1"))]),
        (keySpec, .obj [(strBytes "providerConfigRef", .obj [(keyName, .str (strBytes "default"))])])]

/-- A Configuration-GVK object whose `spec` has the wrong dynamic type, so
that typed conversion fails; no heuristic matches it. -/
def uBadConfiguration : JSON :=
  .obj [(keyAPIVersion, .str (strBytes "pkg.crossplane.io/v1")),
        (keyKind, .str (strBytes "Configuration")),
        (keySpec, .str (strBytes "bogus"))]

/-- A composite object with a full identity 4-tuple. -/
def uComposite : JSON :=
  .obj [(keyAPIVersion, .str (strBytes "example.org/v1")),
        (keyKind, .str (strBytes "XThing")),
        (keyMetadata, .obj [(keyName, .str (strBytes "x-1"))]),
        (keySpec, .obj [(strBytes "resourceRefs", .arr [])])]

/-! ## Codec lemmas -/

theorem charToSextet_sextetToChar {s : Nat} (h : s < 64) :
    charToSextet (sextetToChar s) = some s := by
  revert h
  revert s
  decide

theorem sextetToChar_ne_newline {s : Nat} (h : s < 64) :
    (sextetToChar s != 10 && sextetToChar s != 13) = true := by
  revert h
  revert s
  decide

theorem encodeGroups_lt : ∀ bs : List Nat, (∀ b ∈ bs, b < 256) →
    ∀ s ∈ encodeGroups bs, s < 64
  | [], _ => by simp [encodeGroups]
  | [b0], h => by
    have h0 := h b0 (by simp)
    simp only [encodeGroups, List.mem_cons, List.not_mem_nil, or_false]
    rintro s (rfl | rfl) <;> omega
  | [b0, b1], h => by
    have h0 := h b0 (by simp)
    have h1 := h b1 (by simp)
    simp only [encodeGroups, List.mem_cons, List.not_mem_nil, or_false]
    rintro s (rfl | rfl | rfl) <;> omega
  | b0 :: b1 :: b2 :: rest, h => by
    have h0 := h b0 (by simp)
    have h1 := h b1 (by simp)
    have h2 := h b2 (by simp)
    have ih := encodeGroups_lt rest fun b hb => h b (by simp [hb])
    simp only [encodeGroups, List.mem_cons]
    rintro s (rfl | rfl | rfl | rfl | hs)
    · omega
    · omega
    · omega
    · omega
    · exact ih s hs

theorem decodeGroups_encodeGroups : ∀ bs : List Nat, (∀ b ∈ bs, b < 256) →
    decodeGroups (encodeGroups bs) = some bs
  | [], _ => rfl
  | [b0], h => by
    have h0 := h b0 (by simp)
    simp only [encodeGroups, decodeGroups, Option.some.injEq, List.cons.injEq, and_true]
    omega
  | [b0, b1], h => by
    have h0 := h b0 (by simp)
    have h1 := h b1 (by simp)
    simp only [encodeGroups, decodeGroups, Option.some.injEq, List.cons.injEq, and_true]
    omega
  | b0 :: b1 :: b2 :: rest, h => by
    have h0 := h b0 (by simp)
    have h1 := h b1 (by simp)
    have h2 := h b2 (by simp)
    have ih := decodeGroups_encodeGroups rest fun b hb => h b (by simp [hb])
    simp only [encodeGroups, decodeGroups, ih, Option.some.injEq, List.cons.injEq]
    refine ⟨?_, ?_, ?_, trivial⟩ <;> omega

theorem traverseOption_charToSextet : ∀ ss : List Nat, (∀ s ∈ ss, s < 64) →
    traverseOption charToSextet (ss.map sextetToChar) = some ss
  | [], _ => rfl
  | s :: rest, h => by
    have hs := charToSextet_sextetToChar (h s (by simp))
    have ih := traverseOption_charToSextet rest fun x hx => h x (by simp [hx])
    simp [traverseOption, hs, ih]

theorem stripNewlines_map_sextetToChar (ss : List Nat) (h : ∀ s ∈ ss, s < 64) :
    stripNewlines (ss.map sextetToChar) = ss.map sextetToChar := by
  apply List.filter_eq_self.mpr
  intro c hc
  obtain ⟨s, hs, rfl⟩ := List.mem_map.mp hc
  exact sextetToChar_ne_newline (h s hs)

/-- The base64 decode of a base64 encode recovers the original byte string. -/
theorem decodeRawStd_encodeRawStd (bs : List Nat) (h : ∀ b ∈ bs, b < 256) :
    decodeRawStd (encodeRawStd bs) = some bs := by
  have hlt := encodeGroups_lt bs h
  simp only [decodeRawStd, encodeRawStd, stripNewlines_map_sextetToChar _ hlt,
    traverseOption_charToSextet _ hlt]
  exact decodeGroups_encodeGroups bs h

theorem splitOnByte_of_not_mem {sep : Nat} : ∀ {xs : List Nat}, sep ∉ xs →
    splitOnByte sep xs = [xs]
  | [], _ => rfl
  | c :: rest, h => by
    have hc : c ≠ sep := fun hcs => h (hcs ▸ List.mem_cons_self c rest)
    have ih := splitOnByte_of_not_mem (fun hm => h (List.mem_cons_of_mem c hm))
    simp [splitOnByte, hc, ih]

theorem splitOnByte_append_sep {sep : Nat} : ∀ {xs : List Nat}, sep ∉ xs →
    ∀ ys : List Nat, splitOnByte sep (xs ++ sep :: ys) = xs :: splitOnByte sep ys
  | [], _, ys => by simp [splitOnByte]
  | c :: rest, h, ys => by
    have hc : c ≠ sep := fun hcs => h (hcs ▸ List.mem_cons_self c rest)
    have ih := splitOnByte_append_sep (fun hm => h (List.mem_cons_of_mem c hm)) ys
    simp [splitOnByte, hc, ih]

/-- Splitting the joined payload recovers the four fields, provided no field
contains the separator byte. -/
theorem splitOnByte_payload (id : ReferenceID)
    (ha : sepByte ∉ id.apiVersion) (hk : sepByte ∉ id.kind)
    (hns : sepByte ∉ id.namespace') (hn : sepByte ∉ id.name) :
    splitOnByte sepByte id.payload = [id.apiVersion, id.kind, id.namespace', id.name] := by
  simp only [ReferenceID.payload, splitOnByte_append_sep ha, splitOnByte_append_sep hk,
    splitOnByte_append_sep hns, splitOnByte_of_not_mem hn]

/-- C1, supporting form: round-trip for a `ReferenceID` whose fields are
byte strings free of the separator byte. -/
theorem parseReferenceID_string (id : ReferenceID)
    (hbytes : ∀ b ∈ id.payload, b < 256)
    (ha : sepByte ∉ id.apiVersion) (hk : sepByte ∉ id.kind)
    (hns : sepByte ∉ id.namespace') (hn : sepByte ∉ id.name) :
    ParseReferenceID id.string = .ok id := by
  simp only [ParseReferenceID, ReferenceID.string, decodeRawStd_encodeRawStd _ hbytes,
    splitOnByte_payload id ha hk hns hn]

/-! ## Traversal lemmas -/

theorem traverseExcept_ok_length (f : α → Except ε β) :
    ∀ (l : List α) (bs : List β), traverseExcept f l = .ok bs → bs.length = l.length
  | [], bs, h => by
    simp only [traverseExcept, Except.ok.injEq] at h
    simp [← h]
  | a :: as, bs, h => by
    simp only [traverseExcept] at h
    cases hfa : f a with
    | error e => simp [hfa] at h
    | ok b =>
      cases htr : traverseExcept f as with
      | error e => simp [hfa, htr] at h
      | ok bs' =>
        simp only [hfa, htr, Except.ok.injEq] at h
        have := traverseExcept_ok_length f as bs' htr
        simp [← h, this]

theorem traverseExcept_ok_of_forall (f : α → Except ε β) :
    ∀ l : List α, (∀ a ∈ l, ∃ b, f a = .ok b) → ∃ bs, traverseExcept f l = .ok bs
  | [], _ => ⟨[], rfl⟩
  | a :: as, h => by
    obtain ⟨b, hb⟩ := h a (by simp)
    obtain ⟨bs, hbs⟩ := traverseExcept_ok_of_forall f as fun x hx => h x (by simp [hx])
    exact ⟨b :: bs, by simp [traverseExcept, hb, hbs]⟩

theorem traverseExcept_error_of_mem (f : α → Except ε β) :
    ∀ (l : List α) (a : α) (e : ε), a ∈ l → f a = .error e →
      ∃ e', traverseExcept f l = .error e'
  | x :: xs, a, e, hmem, herr => by
    rcases List.mem_cons.mp hmem with rfl | hxs
    · exact ⟨e, by simp [traverseExcept, herr]⟩
    · cases hfx : f x with
      | error e' => exact ⟨e', by simp [traverseExcept, hfx]⟩
      | ok b =>
        obtain ⟨e', he'⟩ := traverseExcept_error_of_mem f xs a e hxs herr
        exact ⟨e', by simp [traverseExcept, hfx, he']⟩

theorem traverseExcept_congr (f g : α → Except ε β) :
    ∀ l : List α, (∀ a ∈ l, f a = g a) → traverseExcept f l = traverseExcept g l
  | [], _ => rfl
  | a :: as, h => by
    have ha := h a (by simp)
    have ih := traverseExcept_congr f g as fun x hx => h x (by simp [hx])
    simp [traverseExcept, ha, ih]

/-! ## The `Revisions` loop characterization -/

/-- The loop of `configuration.Revisions` is modeling of the
still-page-destined survivors by `getRev`, fail-fast, with the count advanced
by the total number of survivors. -/
theorem revisionsLoop_spec (getRev : ConfigurationRevision → Except String β)
    (parentUID : GoStr) (active : Option Bool) (limit : Option Int) :
    ∀ (cands : List ConfigurationRevision) (count : Int) (items : List β),
    revisionsLoop getRev parentUID limit active count items cands =
      match traverseExcept getRev
          (pageFrom limit count (cands.filter (passesFilters parentUID active))) with
      | .error e => .error ("cannot model configuration revision: " ++ e)
      | .ok its =>
        .ok ⟨count + (cands.filter (passesFilters parentUID active)).length, items ++ its⟩ := by
  intro cands
  induction cands with
  | nil =>
    intro count items
    have hpage : pageFrom limit count ([] : List ConfigurationRevision) = [] := by
      cases limit <;> simp [pageFrom]
    simp [revisionsLoop, hpage, traverseExcept]
  | cons cr rest ih =>
    intro count items
    by_cases h1 : excludedByController parentUID cr
    · have hpass : passesFilters parentUID active cr = false := by
        simp [passesFilters, h1]
      have hstep : revisionsLoop getRev parentUID limit active count items (cr :: rest) =
          revisionsLoop getRev parentUID limit active count items rest := by
        simp [revisionsLoop, h1]
      have hfilter : (cr :: rest).filter (passesFilters parentUID active) =
          rest.filter (passesFilters parentUID active) := by
        simp [List.filter_cons, hpass]
      rw [hstep, hfilter]
      exact ih count items
    · by_cases h2 : excludedByActive active cr
      · have hpass : passesFilters parentUID active cr = false := by
          simp [passesFilters, h2]
        have hstep : revisionsLoop getRev parentUID limit active count items (cr :: rest) =
            revisionsLoop getRev parentUID limit active count items rest := by
          simp [revisionsLoop, h1, h2]
        have hfilter : (cr :: rest).filter (passesFilters parentUID active) =
            rest.filter (passesFilters parentUID active) := by
          simp [List.filter_cons, hpass]
        rw [hstep, hfilter]
        exact ih count items
      · have hpass : passesFilters parentUID active cr = true := by
          simp [passesFilters, h1, h2]
        have hfilter : (cr :: rest).filter (passesFilters parentUID active) =
            cr :: rest.filter (passesFilters parentUID active) := by
          simp [List.filter_cons, hpass]
        rw [hfilter]
        by_cases hl : limitHit limit (count + 1)
        · obtain ⟨l, rfl⟩ : ∃ l, limit = some l := by
            cases limit with
            | none => simp [limitHit] at hl
            | some l => exact ⟨l, rfl⟩
          have hlt : l < count + 1 := by simpa [limitHit] using hl
          have hz : (l - count).toNat = 0 := by omega
          have hz' : (l - (count + 1)).toNat = 0 := by omega
          have hstep : revisionsLoop getRev parentUID (some l) active count items (cr :: rest) =
              revisionsLoop getRev parentUID (some l) active (count + 1) items rest := by
            simp [revisionsLoop, h1, h2, hl]
          rw [hstep, ih (count + 1) items]
          simp only [pageFrom, hz, hz', List.take_zero, traverseExcept, List.length_cons,
            List.append_nil]
          congr 2
          push_cast
          omega
        · have hcons : pageFrom limit count
              (cr :: rest.filter (passesFilters parentUID active)) =
              cr :: pageFrom limit (count + 1) (rest.filter (passesFilters parentUID active)) := by
            cases limit with
            | none => simp [pageFrom]
            | some l =>
              have hpos : ¬ l < count + 1 := by simpa [limitHit] using hl
              have hsucc : (l - count).toNat = (l - (count + 1)).toNat + 1 := by omega
              simp [pageFrom, hsucc]
          rw [hcons]
          cases hget : getRev cr with
          | error e =>
            have hstep : revisionsLoop getRev parentUID limit active count items (cr :: rest) =
                .error ("cannot model configuration revision: " ++ e) := by
              simp [revisionsLoop, h1, h2, hl, hget]
            rw [hstep]
            simp [traverseExcept, hget]
          | ok i =>
            have hstep : revisionsLoop getRev parentUID limit active count items (cr :: rest) =
                revisionsLoop getRev parentUID limit active (count + 1) (items ++ [i]) rest := by
              simp [revisionsLoop, h1, h2, hl, hget]
            rw [hstep, ih (count + 1) (items ++ [i])]
            cases htr : traverseExcept getRev
                (pageFrom limit (count + 1) (rest.filter (passesFilters parentUID active))) with
            | error e => simp [traverseExcept, hget, htr]
            | ok its =>
              simp only [traverseExcept, hget, htr, List.length_cons]
              congr 2
              · push_cast
                omega
              · simp

/-- The function `revisions` characterized: the count is the number of survivors of both
filters, and the items are the fail-fast modeling of the page-destined
survivors. -/
theorem revisions_spec (getRev : ConfigurationRevision → Except String β)
    (parentUID : GoStr) (active : Option Bool) (limit : Option Int)
    (cands : List ConfigurationRevision) :
    revisions getRev parentUID limit active cands =
      match traverseExcept getRev
          (pageOf limit (cands.filter (passesFilters parentUID active))) with
      | .error e => .error ("cannot model configuration revision: " ++ e)
      | .ok its => .ok ⟨(cands.filter (passesFilters parentUID active)).length, its⟩ := by
  have hpage : pageOf limit (cands.filter (passesFilters parentUID active)) =
      pageFrom limit 0 (cands.filter (passesFilters parentUID active)) := by
    cases limit <;> simp [pageOf, pageFrom]
  rw [revisions, revisionsLoop_spec, ← hpage]
  cases traverseExcept getRev (pageOf limit (cands.filter (passesFilters parentUID active))) <;>
    simp

/-! ## The `Objects` loop characterization -/

theorem traverseCollect_ok_elem (f : α → Except ε (Option β)) :
    ∀ (l : List α) (its : List β), traverseCollect f l = .ok its →
      ∀ a ∈ l, ∃ v, f a = .ok v
  | x :: xs, its, h, a, hmem => by
    rcases List.mem_cons.mp hmem with rfl | hxs
    · cases hfa : f a with
      | error e => simp [traverseCollect, hfa] at h
      | ok v => exact ⟨v, rfl⟩
    · cases hfx : f x with
      | error e => simp [traverseCollect, hfx] at h
      | ok v =>
        cases v with
        | none =>
          simp only [traverseCollect, hfx] at h
          exact traverseCollect_ok_elem f xs its h a hxs
        | some b =>
          simp only [traverseCollect, hfx] at h
          cases htr : traverseCollect f xs with
          | error e => simp [htr] at h
          | ok its' => exact traverseCollect_ok_elem f xs its' htr a hxs

theorem traverseCollect_ok_length (f : α → Except ε (Option β)) :
    ∀ (l : List α) (its : List β), traverseCollect f l = .ok its →
      its.length = (l.filter fun a => okSome (f a)).length
  | [], its, h => by
    simp only [traverseCollect, Except.ok.injEq] at h
    simp [← h]
  | x :: xs, its, h => by
    cases hfx : f x with
    | error e => simp [traverseCollect, hfx] at h
    | ok v =>
      cases v with
      | none =>
        simp only [traverseCollect, hfx] at h
        have := traverseCollect_ok_length f xs its h
        simp [List.filter_cons, okSome, hfx, this]
      | some b =>
        simp only [traverseCollect, hfx] at h
        cases htr : traverseCollect f xs with
        | error e => simp [htr] at h
        | ok its' =>
          simp only [htr, Except.ok.injEq] at h
          have := traverseCollect_ok_length f xs its' htr
          simp [← h, List.filter_cons, okSome, hfx, this]

theorem traverseCollect_ok_of_forall (f : α → Except ε (Option β)) :
    ∀ l : List α, (∀ a ∈ l, ∃ v, f a = .ok v) → ∃ its, traverseCollect f l = .ok its
  | [], _ => ⟨[], rfl⟩
  | x :: xs, h => by
    obtain ⟨v, hv⟩ := h x (by simp)
    obtain ⟨its, hits⟩ := traverseCollect_ok_of_forall f xs fun a ha => h a (by simp [ha])
    cases v with
    | none => exact ⟨its, by simp [traverseCollect, hv, hits]⟩
    | some b => exact ⟨b :: its, by simp [traverseCollect, hv, hits]⟩

/-- The loop of `configurationRevisionStatus.Objects` is fetch-and-model of
the still-page-destined in-group references, fail-fast, with the count
advanced by the total number of in-group references. -/
theorem objectsLoop_spec (getXRD : GoStr → Except String γ₁) (modelXRD : γ₁ → Except String β)
    (getComposition : GoStr → Except String γ₂) (modelComposition : γ₂ → Except String β)
    (limit : Option Int) :
    ∀ (refs : List ObjectRef) (count : Int) (items : List β),
    objectsLoop getXRD modelXRD getComposition modelComposition limit count items refs =
      match traverseCollect (fetchModelRef getXRD modelXRD getComposition modelComposition)
          (pageFrom limit count (refs.filter inAPIExtGroup)) with
      | .error e => .error e
      | .ok its => .ok ⟨count + (refs.filter inAPIExtGroup).length, items ++ its⟩ := by
  intro refs
  induction refs with
  | nil =>
    intro count items
    have hpage : pageFrom limit count ([] : List ObjectRef) = [] := by
      cases limit <;> simp [pageFrom]
    simp [objectsLoop, hpage, traverseCollect]
  | cons ref rest ih =>
    intro count items
    by_cases hg : inAPIExtGroup ref
    · have hfilter : (ref :: rest).filter inAPIExtGroup = ref :: rest.filter inAPIExtGroup := by
        simp [List.filter_cons, hg]
      rw [hfilter]
      by_cases hl : limitHit limit (count + 1)
      · obtain ⟨l, rfl⟩ : ∃ l, limit = some l := by
          cases limit with
          | none => simp [limitHit] at hl
          | some l => exact ⟨l, rfl⟩
        have hlt : l < count + 1 := by simpa [limitHit] using hl
        have hz : (l - count).toNat = 0 := by omega
        have hz' : (l - (count + 1)).toNat = 0 := by omega
        have hstep : objectsLoop getXRD modelXRD getComposition modelComposition (some l)
            count items (ref :: rest) =
            objectsLoop getXRD modelXRD getComposition modelComposition (some l)
              (count + 1) items rest := by
          simp [objectsLoop, hg, hl]
        rw [hstep, ih (count + 1) items]
        simp only [pageFrom, hz, hz', List.take_zero, traverseCollect, List.length_cons,
          List.append_nil]
        congr 2
        push_cast
        omega
      · have hcons : pageFrom limit count (ref :: rest.filter inAPIExtGroup) =
            ref :: pageFrom limit (count + 1) (rest.filter inAPIExtGroup) := by
          cases limit with
          | none => simp [pageFrom]
          | some l =>
            have hpos : ¬ l < count + 1 := by simpa [limitHit] using hl
            have hsucc : (l - count).toNat = (l - (count + 1)).toNat + 1 := by omega
            simp [pageFrom, hsucc]
        rw [hcons]
        cases hget : fetchModelRef getXRD modelXRD getComposition modelComposition ref with
        | error e =>
          have hstep : objectsLoop getXRD modelXRD getComposition modelComposition limit
              count items (ref :: rest) = .error e := by
            simp [objectsLoop, hg, hl, hget]
          rw [hstep]
          simp [traverseCollect, hget]
        | ok v =>
          cases v with
          | none =>
            have hstep : objectsLoop getXRD modelXRD getComposition modelComposition limit
                count items (ref :: rest) =
                objectsLoop getXRD modelXRD getComposition modelComposition limit
                  (count + 1) items rest := by
              simp [objectsLoop, hg, hl, hget]
            rw [hstep, ih (count + 1) items]
            cases htr : traverseCollect
                (fetchModelRef getXRD modelXRD getComposition modelComposition)
                (pageFrom limit (count + 1) (rest.filter inAPIExtGroup)) with
            | error e => simp [traverseCollect, hget, htr]
            | ok its =>
              simp only [traverseCollect, hget, htr, List.length_cons]
              congr 2
              push_cast
              omega
          | some i =>
            have hstep : objectsLoop getXRD modelXRD getComposition modelComposition limit
                count items (ref :: rest) =
                objectsLoop getXRD modelXRD getComposition modelComposition limit
                  (count + 1) (items ++ [i]) rest := by
              simp [objectsLoop, hg, hl, hget]
            rw [hstep, ih (count + 1) (items ++ [i])]
            cases htr : traverseCollect
                (fetchModelRef getXRD modelXRD getComposition modelComposition)
                (pageFrom limit (count + 1) (rest.filter inAPIExtGroup)) with
            | error e => simp [traverseCollect, hget, htr]
            | ok its =>
              simp only [traverseCollect, hget, htr, List.length_cons]
              congr 2
              · push_cast
                omega
              · simp
    · have hfilter : (ref :: rest).filter inAPIExtGroup = rest.filter inAPIExtGroup := by
        simp [List.filter_cons, hg]
      have hstep : objectsLoop getXRD modelXRD getComposition modelComposition limit
          count items (ref :: rest) =
          objectsLoop getXRD modelXRD getComposition modelComposition limit count items rest := by
        simp [objectsLoop, hg]
      rw [hstep, hfilter]
      exact ih count items

/-- The function `objects` characterized: the count is the number of in-group references,
and the items are the fail-fast fetch-and-model of the page-destined
in-group references. -/
theorem objects_spec (getXRD : GoStr → Except String γ₁) (modelXRD : γ₁ → Except String β)
    (getComposition : GoStr → Except String γ₂) (modelComposition : γ₂ → Except String β)
    (limit : Option Int) (refs : List ObjectRef) :
    objects getXRD modelXRD getComposition modelComposition limit refs =
      match traverseCollect (fetchModelRef getXRD modelXRD getComposition modelComposition)
          (pageOf limit (refs.filter inAPIExtGroup)) with
      | .error e => .error e
      | .ok its => .ok ⟨(refs.filter inAPIExtGroup).length, its⟩ := by
  have hpage : pageOf limit (refs.filter inAPIExtGroup) =
      pageFrom limit 0 (refs.filter inAPIExtGroup) := by
    cases limit <;> simp [pageOf, pageFrom]
  rw [objects, objectsLoop_spec, ← hpage]
  cases traverseCollect (fetchModelRef getXRD modelXRD getComposition modelComposition)
      (pageOf limit (refs.filter inAPIExtGroup)) <;> simp

/-! ## Claim C1 -/

/-- C1: for every `ReferenceID` 4-tuple (of Go strings, i.e. byte strings) in
which no field contains the reserved separator character `'|'`, decoding the
encoded token yields the original tuple: `ParseReferenceID (ref.String())`
returns `ref` with no error. -/
theorem C1_reference_id_roundtrip (ref : ReferenceID)
    (hbytes : ∀ b ∈ ref.payload, b < 256)
    (hsep : sepByte ∉ ref.apiVersion ∧ sepByte ∉ ref.kind ∧
      sepByte ∉ ref.namespace' ∧ sepByte ∉ ref.name) :
    ParseReferenceID ref.string = .ok ref :=
  parseReferenceID_string ref hbytes hsep.1 hsep.2.1 hsep.2.2.1 hsep.2.2.2

/-- Witness for C1: the spec's end-to-end fixture
`{apiVersion: a/v1, kind: Foo, namespace: ns, name: bar}` round-trips. -/
theorem C1_witness : ParseReferenceID refFixture.string = .ok refFixture :=
  C1_reference_id_roundtrip refFixture (by decide) (by decide)

/-! ## Claim C6 -/

/-- C6: `ParseReferenceID` fails with the decode error when the input is not
valid unpadded base64, fails with the malformed error when the decoded
payload does not split into exactly four parts on the separator, and succeeds
exactly when the input decodes and the decoded bytes split into four parts;
being a total function of the embedding, it cannot panic. -/
theorem C6_parse_error_classification (s : GoStr) :
    (decodeRawStd s = none → ParseReferenceID s = .error .decode)
    ∧ (∀ b, decodeRawStd s = some b → (splitOnByte sepByte b).length ≠ 4 →
        ParseReferenceID s = .error .malformed)
    ∧ ((∃ r, ParseReferenceID s = .ok r) ↔
        ∃ b, decodeRawStd s = some b ∧ (splitOnByte sepByte b).length = 4) := by
  cases hd : decodeRawStd s with
  | none =>
    have hp : ParseReferenceID s = .error .decode := by
      simp [ParseReferenceID, hd]
    refine ⟨fun _ => hp, fun b hb => by simp [hd] at hb, ?_, ?_⟩
    · rintro ⟨r, hr⟩
      rw [hp] at hr
      cases hr
    · rintro ⟨b, hb, _⟩
      simp [hd] at hb
  | some b =>
    have hmal : ∀ b', some b = some b' → b' = b := fun b' hb' => by
      injection hb' with h
      exact h.symm
    rcases hsp : splitOnByte sepByte b with _ | ⟨p1, _ | ⟨p2, _ | ⟨p3, _ | ⟨p4, _ | ⟨p5, tl⟩⟩⟩⟩⟩
    case nil =>
      have hp : ParseReferenceID s = .error .malformed := by
        simp [ParseReferenceID, hd, hsp]
      refine ⟨fun h => by simp at h, fun _ _ _ => hp, ?_, ?_⟩
      · rintro ⟨r, hr⟩
        rw [hp] at hr
        cases hr
      · rintro ⟨b', hb', hlen⟩
        obtain rfl := hmal b' hb'
        rw [hsp] at hlen
        simp at hlen
    case cons.nil =>
      have hp : ParseReferenceID s = .error .malformed := by
        simp [ParseReferenceID, hd, hsp]
      refine ⟨fun h => by simp at h, fun _ _ _ => hp, ?_, ?_⟩
      · rintro ⟨r, hr⟩
        rw [hp] at hr
        cases hr
      · rintro ⟨b', hb', hlen⟩
        obtain rfl := hmal b' hb'
        rw [hsp] at hlen
        simp at hlen
    case cons.cons.nil =>
      have hp : ParseReferenceID s = .error .malformed := by
        simp [ParseReferenceID, hd, hsp]
      refine ⟨fun h => by simp at h, fun _ _ _ => hp, ?_, ?_⟩
      · rintro ⟨r, hr⟩
        rw [hp] at hr
        cases hr
      · rintro ⟨b', hb', hlen⟩
        obtain rfl := hmal b' hb'
        rw [hsp] at hlen
        simp at hlen
    case cons.cons.cons.nil =>
      have hp : ParseReferenceID s = .error .malformed := by
        simp [ParseReferenceID, hd, hsp]
      refine ⟨fun h => by simp at h, fun _ _ _ => hp, ?_, ?_⟩
      · rintro ⟨r, hr⟩
        rw [hp] at hr
        cases hr
      · rintro ⟨b', hb', hlen⟩
        obtain rfl := hmal b' hb'
        rw [hsp] at hlen
        simp at hlen
    case cons.cons.cons.cons.nil =>
      have hp : ParseReferenceID s = .ok ⟨p1, p2, p3, p4⟩ := by
        simp [ParseReferenceID, hd, hsp]
      refine ⟨fun h => by simp at h, fun b' hb' hlen => ?_, ?_, ?_⟩
      · obtain rfl := hmal b' hb'
        rw [hsp] at hlen
        simp at hlen
      · intro _
        exact ⟨b, rfl, by rw [hsp]; rfl⟩
      · intro _
        exact ⟨⟨p1, p2, p3, p4⟩, hp⟩
    case cons.cons.cons.cons.cons =>
      have hp : ParseReferenceID s = .error .malformed := by
        simp [ParseReferenceID, hd, hsp]
      refine ⟨fun h => by simp at h, fun _ _ _ => hp, ?_, ?_⟩
      · rintro ⟨r, hr⟩
        rw [hp] at hr
        cases hr
      · rintro ⟨b', hb', hlen⟩
        obtain rfl := hmal b' hb'
        rw [hsp] at hlen
        simp at hlen

/-- Witness for C6: a non-base64 token fails with the decode error, and a
valid token whose payload has one part fails with the malformed error. -/
theorem C6_witness :
    ParseReferenceID (strBytes "!") = .error .decode
    ∧ ParseReferenceID (strBytes "YQ") = .error .malformed :=
  ⟨(C6_parse_error_classification (strBytes "!")).1 (by decide),
   (C6_parse_error_classification (strBytes "YQ")).2.1 (strBytes "a") (by decide) (by decide)⟩

/-! ## Claims C2, C3, C4, C9 -/

theorem passes_of_mem_pageOf {p : α → Bool} {limit : Option Int} {l : List α} {a : α}
    (h : a ∈ pageOf limit (l.filter p)) : p a = true := by
  have hmem : a ∈ l.filter p := by
    cases limit with
    | none => exact h
    | some lim => exact List.take_subset _ _ h
  exact (List.mem_filter.mp hmem).2

/-- C2: whenever `Revisions` returns a connection, its count is the number of
candidates whose controller-reference UID equals the parent configuration's
UID and that pass the active-state filter — for every limit, nil or not; and
the result does not depend on the modeling of excluded candidates (they are
neither counted nor modeled). -/
theorem C2_revisions_count {β : Type} (getRev getRev' : ConfigurationRevision → Except String β)
    (parentUID : GoStr) (limit : Option Int) (active : Option Bool)
    (cands : List ConfigurationRevision) (conn : Connection β)
    (hok : revisions getRev parentUID limit active cands = .ok conn) :
    conn.count = ((cands.filter (passesFilters parentUID active)).length : Int)
    ∧ ((∀ cr, passesFilters parentUID active cr = true → getRev' cr = getRev cr) →
        revisions getRev' parentUID limit active cands =
          revisions getRev parentUID limit active cands) := by
  constructor
  · have hs := revisions_spec getRev parentUID active limit cands
    rw [hok] at hs
    cases htr : traverseExcept getRev
        (pageOf limit (cands.filter (passesFilters parentUID active))) with
    | error e => rw [htr] at hs; cases hs
    | ok its =>
      rw [htr] at hs
      injection hs with h
      rw [h]
  · intro hagree
    rw [revisions_spec getRev parentUID active limit cands,
      revisions_spec getRev' parentUID active limit cands,
      traverseExcept_congr getRev' getRev _
        fun cr hcr => hagree cr (passes_of_mem_pageOf hcr)]

/-- Witness for C2 on the five-candidate fixture: three of the five listed
candidates are owned by the parent, and the returned count is 3. -/
theorem C2_witness :
    (Connection.mk 3 [strBytes "rev-a", strBytes "rev-b", strBytes "rev-c"]).count =
      ((revCandidates.filter (passesFilters parentUIDFixture none)).length : Int) :=
  (C2_revisions_count nameRev nameRev parentUIDFixture none none revCandidates
    ⟨3, [strBytes "rev-a", strBytes "rev-b", strBytes "rev-c"]⟩ rfl).1

/-- C3: whenever `Revisions` returns a connection, the number of items equals
`min(count, limit)` for a non-negative limit and `count` when the limit is
nil; and the items are the in-order modeling of the first surviving
candidates in backend list order. -/
theorem C3_revisions_page {β : Type} (getRev : ConfigurationRevision → Except String β)
    (parentUID : GoStr) (limit : Option Int) (active : Option Bool)
    (cands : List ConfigurationRevision) (conn : Connection β)
    (hok : revisions getRev parentUID limit active cands = .ok conn) :
    (limit = none → (conn.items.length : Int) = conn.count
      ∧ traverseExcept getRev (cands.filter (passesFilters parentUID active)) = .ok conn.items)
    ∧ (∀ l : Int, limit = some l → 0 ≤ l →
        (conn.items.length : Int) = min conn.count l
        ∧ traverseExcept getRev
            ((cands.filter (passesFilters parentUID active)).take l.toNat) = .ok conn.items) := by
  have hs := revisions_spec getRev parentUID active limit cands
  rw [hok] at hs
  cases htr : traverseExcept getRev
      (pageOf limit (cands.filter (passesFilters parentUID active))) with
  | error e => rw [htr] at hs; cases hs
  | ok its =>
    rw [htr] at hs
    injection hs with h
    subst h
    have hlen := traverseExcept_ok_length getRev _ _ htr
    constructor
    · rintro rfl
      simp only [pageOf] at htr hlen
      exact ⟨by simp [hlen], htr⟩
    · rintro l rfl hl
      simp only [pageOf] at htr hlen
      refine ⟨?_, htr⟩
      rw [List.length_take] at hlen
      simp only
      omega

/-- Witness for C3, the spec's end-to-end scenario: five candidates, three
owned by the parent, limit 2: count is 3, two items, the first two owned
candidates in list order. -/
theorem C3_witness :
    ((Connection.mk 3 [strBytes "rev-a", strBytes "rev-b"]).items.length : Int) =
      min (Connection.mk 3 [strBytes "rev-a", strBytes "rev-b"]).count 2
    ∧ traverseExcept nameRev
        ((revCandidates.filter (passesFilters parentUIDFixture none)).take (2 : Int).toNat) =
      .ok (Connection.mk 3 [strBytes "rev-a", strBytes "rev-b"]).items :=
  (C3_revisions_page nameRev parentUIDFixture (some 2) none revCandidates
    ⟨3, [strBytes "rev-a", strBytes "rev-b"]⟩ rfl).2 2 rfl (by decide)

/-- C4: if modeling any candidate destined for the returned page fails,
`Revisions` returns an error and no connection value at all — no partial
list. -/
theorem C4_revisions_fail_fast {β : Type} (getRev : ConfigurationRevision → Except String β)
    (parentUID : GoStr) (limit : Option Int) (active : Option Bool)
    (cands : List ConfigurationRevision) (cr : ConfigurationRevision) (e : String)
    (hmem : cr ∈ pageOf limit (cands.filter (passesFilters parentUID active)))
    (herr : getRev cr = .error e) :
    ∃ msg, revisions getRev parentUID limit active cands = .error msg := by
  obtain ⟨e', he'⟩ := traverseExcept_error_of_mem getRev _ cr e hmem herr
  exact ⟨_, by rw [revisions_spec, he']⟩

/-- Witness for C4: the second-to-be-modeled owned candidate fails, and the
whole resolution fails. -/
theorem C4_witness :
    ∃ msg, revisions failOnB parentUIDFixture none none revCandidates = .error msg :=
  C4_revisions_fail_fast failOnB parentUIDFixture none none revCandidates crOwnedB "boom"
    (by decide) rfl

/-- C9: for every candidate list and every negative limit, `Revisions`
returns zero items while the count still equals the number of candidates
passing both filters — and since nothing is modeled, it always succeeds. -/
theorem C9_revisions_negative_limit {β : Type} (getRev : ConfigurationRevision → Except String β)
    (parentUID : GoStr) (active : Option Bool) (cands : List ConfigurationRevision)
    (l : Int) (hl : l < 0) :
    revisions getRev parentUID (some l) active cands =
      .ok ⟨((cands.filter (passesFilters parentUID active)).length : Int), []⟩ := by
  have hz : l.toNat = 0 := by omega
  rw [revisions_spec]
  simp [pageOf, hz, traverseExcept]

/-- Witness for C9: limit `-1` on the five-candidate fixture, with a modeling
function that always fails — the resolution still succeeds with count 3 and
no items. -/
theorem C9_witness :
    revisions (fun _ => (.error "boom" : Except String GoStr)) parentUIDFixture (some (-1))
      none revCandidates = .ok ⟨3, []⟩ := by
  rw [C9_revisions_negative_limit (fun _ => (.error "boom" : Except String GoStr))
    parentUIDFixture none revCandidates (-1) (by decide)]
  rfl

/-! ## Claim C10 -/

/-- If the fetch-and-model step of `Objects` succeeded on a reference, it
produced an item exactly when the reference's kind is one of the two handled
kinds. -/
theorem okSome_fetchModelRef {γ₁ γ₂ β : Type}
    (getXRD : GoStr → Except String γ₁) (modelXRD : γ₁ → Except String β)
    (getComposition : GoStr → Except String γ₂) (modelComposition : γ₂ → Except String β)
    (ref : ObjectRef)
    (h : ∃ v, fetchModelRef getXRD modelXRD getComposition modelComposition ref = .ok v) :
    okSome (fetchModelRef getXRD modelXRD getComposition modelComposition ref) =
      refKindHandled ref := by
  obtain ⟨v, hv⟩ := h
  by_cases hx : ref.kind == xrdKind
  · cases hg : getXRD ref.name with
    | error e => simp [fetchModelRef, hx, hg] at hv
    | ok x =>
      cases hm : modelXRD x with
      | error e => simp [fetchModelRef, hx, hg, hm] at hv
      | ok i => simp [fetchModelRef, refKindHandled, hx, hg, hm, okSome]
  · by_cases hc : ref.kind == compositionKind
    · cases hg : getComposition ref.name with
      | error e => simp [fetchModelRef, hx, hc, hg] at hv
      | ok x =>
        cases hm : modelComposition x with
        | error e => simp [fetchModelRef, hx, hc, hg, hm] at hv
        | ok i => simp [fetchModelRef, refKindHandled, hx, hc, hg, hm, okSome]
    · simp [fetchModelRef, refKindHandled, hx, hc, okSome]

/-- C10: in `Objects`, every reference in the `apiextensions.crossplane.io`
group is counted whatever its kind, but only the two handled kinds produce
items, so the item count is the number of handled-kind references on the
page; references outside the group are neither counted nor fetched (an
all-outside list resolves to an empty connection for arbitrary, even
always-failing, fetchers); and on a concrete input with an in-group
unhandled kind, strictly fewer items than `min(count, limit)` are
returned. -/
theorem C10_objects_count_items :
    (∀ (γ₁ γ₂ β : Type) (getXRD : GoStr → Except String γ₁) (modelXRD : γ₁ → Except String β)
        (getComposition : GoStr → Except String γ₂) (modelComposition : γ₂ → Except String β)
        (limit : Option Int) (refs : List ObjectRef) (conn : Connection β),
      objects getXRD modelXRD getComposition modelComposition limit refs = .ok conn →
        conn.count = ((refs.filter inAPIExtGroup).length : Int)
        ∧ conn.items.length =
            ((pageOf limit (refs.filter inAPIExtGroup)).filter refKindHandled).length)
    ∧ (∀ (γ₁ γ₂ β : Type) (getXRD : GoStr → Except String γ₁) (modelXRD : γ₁ → Except String β)
        (getComposition : GoStr → Except String γ₂) (modelComposition : γ₂ → Except String β)
        (limit : Option Int) (refs : List ObjectRef),
      (∀ r ∈ refs, inAPIExtGroup r = false) →
        objects getXRD modelXRD getComposition modelComposition limit refs =
          .ok ⟨0, ([] : List β)⟩)
    ∧ (∃ conn : Connection Unit,
        objects (fun _ => (.error "unreachable" : Except String Unit))
          (fun _ => (.error "unreachable" : Except String Unit))
          (fun _ => (.error "unreachable" : Except String Unit))
          (fun _ => (.error "unreachable" : Except String Unit))
          (some 1) [weirdRef] = .ok conn
        ∧ (conn.items.length : Int) < min conn.count 1) := by
  refine ⟨?_, ?_, ?_⟩
  · intro γ₁ γ₂ β getXRD modelXRD getComposition modelComposition limit refs conn hok
    have hs := objects_spec getXRD modelXRD getComposition modelComposition limit refs
    rw [hok] at hs
    cases htr : traverseCollect (fetchModelRef getXRD modelXRD getComposition modelComposition)
        (pageOf limit (refs.filter inAPIExtGroup)) with
    | error e => rw [htr] at hs; cases hs
    | ok its =>
      rw [htr] at hs
      injection hs with h
      subst h
      refine ⟨rfl, ?_⟩
      have hlen := traverseCollect_ok_length _ _ _ htr
      have helem := traverseCollect_ok_elem _ _ _ htr
      rw [hlen]
      congr 1
      exact List.filter_congr fun r hr =>
        okSome_fetchModelRef getXRD modelXRD getComposition modelComposition r (helem r hr)
  · intro γ₁ γ₂ β getXRD modelXRD getComposition modelComposition limit refs hout
    have hnil : refs.filter inAPIExtGroup = [] := by
      rw [List.filter_eq_nil_iff]
      intro r hr
      simp [hout r hr]
    have hpage : pageOf limit ([] : List ObjectRef) = [] := by
      cases limit <;> simp [pageOf]
    rw [objects_spec, hnil, hpage]
    rfl
  · exact ⟨⟨1, []⟩, rfl, by decide⟩

/-- Witness for C10: with trivial fetchers, the three-reference fixture (an
XRD reference, an in-group reference of unhandled kind, an out-of-group
reference) yields count 2 and a single item. -/
theorem C10_witness :
    (Connection.mk 2 [()]).count = ((objRefs.filter inAPIExtGroup).length : Int)
    ∧ (Connection.mk 2 [()]).items.length =
        ((pageOf none (objRefs.filter inAPIExtGroup)).filter refKindHandled).length :=
  C10_objects_count_items.1 Unit Unit Unit (fun _ => .ok ()) (fun _ => .ok ())
    (fun _ => .ok ()) (fun _ => .ok ()) none objRefs ⟨2, [()]⟩ rfl

/-! ## Claim C5 -/

/-- C5: every object that satisfies both the probably-managed heuristic and
an exact group/version/kind match for one of the known package kinds is
classified by the earlier heuristic rule — `GetKubernetesResource` returns
the managed-resource shape, because the classifier evaluates its rules in a
fixed order with first-match-wins. -/
theorem C5_classifier_managed_precedence (u : JSON)
    (h1 : probablyManaged u = true) (h2 : u.gvk ∈ packageGVKs) :
    ∃ m, GetManagedResource u = .ok m
      ∧ GetKubernetesResource u = .ok (.managed m) := by
  refine ⟨_, rfl, ?_⟩
  simp [GetKubernetesResource, h1, GetManagedResource]

/-- Witness for C5: an object with a provider-config reference in its spec
and the exact Configuration GVK is classified as a managed resource. -/
theorem C5_witness :
    ∃ m, GetManagedResource uManagedPkg = .ok m
      ∧ GetKubernetesResource uManagedPkg = .ok (.managed m) :=
  C5_classifier_managed_precedence uManagedPkg (by decide) (by decide)

/-! ## Claim C8 -/

/-- C8: when an object's group/version/kind exactly matches one of the known
package/extension kinds and none of the shape heuristics claims it, a failing
structural conversion makes `GetKubernetesResource` return an error for that
object — never a fall back to `GenericResource`. -/
theorem C8_classifier_conversion_error (u : JSON)
    (h1 : probablyManaged u = false) (h2 : probablyProviderConfig u = false)
    (h3 : probablyComposite u = false) :
    (∀ e, u.gvk = providerGVK → convertProvider u = .error e →
        GetKubernetesResource u = .error ("cannot convert provider: " ++ e))
    ∧ (∀ e, u.gvk = providerRevisionGVK → convertProviderRevision u = .error e →
        GetKubernetesResource u = .error ("cannot convert provider revision: " ++ e))
    ∧ (∀ e, u.gvk = configurationGVK → convertConfiguration u = .error e →
        GetKubernetesResource u = .error ("cannot convert configuration: " ++ e))
    ∧ (∀ e, u.gvk = configurationRevisionGVK → convertConfigurationRevision u = .error e →
        GetKubernetesResource u = .error ("cannot convert configuration revision: " ++ e))
    ∧ (∀ e, u.gvk = xrdGVK → convertXRD u = .error e →
        GetKubernetesResource u = .error ("cannot convert composite resource definition: " ++ e)) := by
  have d21 : providerRevisionGVK ≠ providerGVK := by decide
  have d31 : configurationGVK ≠ providerGVK := by decide
  have d32 : configurationGVK ≠ providerRevisionGVK := by decide
  have d41 : configurationRevisionGVK ≠ providerGVK := by decide
  have d42 : configurationRevisionGVK ≠ providerRevisionGVK := by decide
  have d43 : configurationRevisionGVK ≠ configurationGVK := by decide
  have d51 : xrdGVK ≠ providerGVK := by decide
  have d52 : xrdGVK ≠ providerRevisionGVK := by decide
  have d53 : xrdGVK ≠ configurationGVK := by decide
  have d54 : xrdGVK ≠ configurationRevisionGVK := by decide
  refine ⟨?_, ?_, ?_, ?_, ?_⟩
  · intro e hg hc
    simp [GetKubernetesResource, h1, h2, h3, hg, hc]
  · intro e hg hc
    simp [GetKubernetesResource, h1, h2, h3, hg, hc, d21]
  · intro e hg hc
    simp [GetKubernetesResource, h1, h2, h3, hg, hc, d31, d32]
  · intro e hg hc
    simp [GetKubernetesResource, h1, h2, h3, hg, hc, d41, d42, d43]
  · intro e hg hc
    simp [GetKubernetesResource, h1, h2, h3, hg, hc, d51, d52, d53, d54]

/-- Witness for C8: a Configuration-GVK object whose `spec` is a string
fails conversion, and the classifier returns that error, not a generic
resource. -/
theorem C8_witness :
    GetKubernetesResource uBadConfiguration =
      .error ("cannot convert configuration: " ++ "json: cannot unmarshal spec") :=
  (C8_classifier_conversion_error uBadConfiguration (by decide) (by decide) (by decide)).2.2.1
    "json: cannot unmarshal spec" (by decide) rfl

/-! ## Claim C7 -/

/-- C7 (refuted by the code): `GetCompositeResource` leaves the record's
`id` at the zero-value `ReferenceID` — the Go composite literal in
`composite.go` never sets the `ID` field — instead of populating it from the
source object's `{apiVersion, kind, namespace, name}` 4-tuple the way
`GetGenericResource` does.  Evaluated at a concrete composite object. -/
theorem C7_composite_id_not_populated :
    (∃ out, GetCompositeResource uComposite = .ok out
      ∧ out.id = ⟨[], [], [], []⟩
      ∧ out.id ≠ ⟨uComposite.apiVersion, uComposite.kind,
          uComposite.namespace', uComposite.name⟩)
    ∧ (∃ g, GetGenericResource uComposite = .ok g
      ∧ g.id = ⟨uComposite.apiVersion, uComposite.kind,
          uComposite.namespace', uComposite.name⟩) :=
  ⟨⟨_, rfl, rfl, by decide⟩, ⟨_, rfl, rfl⟩⟩

end XGQL
